import Mathlib

/-!
Verification of the piccaccel-lnx acquisition pipeline.

This file shallowly embeds the parts of the repository that the
specification's claims are about:

* `adxl355-rs/src/lib.rs` — the ADXL355 SPI protocol driver
  (`Adxl355.new`, `start`, `get_device_id`, `read_temp_raw`,
  `accel_raw`, `accel_norm`, `sample_rate`);
* `accel-daemon/src/accel.rs` — the acquisition engine
  (`accelerator_callback`, the polling loop body of `accelerator_task`,
  the `AccelDataRate` tracker, `get_odr`);
* `accel-data/src/lib.rs` — the `AccelData` record and `as_bytes`.

Modelling conventions:

* Machine integers are `Nat`/`Int`; `u8`/`u32` overflow is explicit
  (`% 2 ^ 32`), and Rust's `i32` bit patterns are interpreted through
  `toSigned32`.
* The SPI bus (an `embedded-hal` `SpiBus`) is a parameter: a `SpiModel σ`
  supplies the `write` and `transfer_in_place` primitives as state
  transformers over an arbitrary bus state `σ`, together with a success
  flag; a `false` flag is a bus/transport error.  The driver's `read`
  helper discards that flag, mirroring the `.ok()` in the source, while
  `read_reg`/`write_reg` propagate it.
* `f32` arithmetic is modelled over `ℚ` (exact arithmetic with the same
  operation structure as the source); `Instant` is modelled as a
  monotone microsecond counter (`Nat`), and `as_secs_f32` as exact
  division by `10 ^ 6`.
* Where serialization needs the bytes of an `f32`, the float is carried
  as its IEEE-754 bit pattern (a `Nat < 2 ^ 32`), since
  `f32::to_le_bytes` emits exactly the little-endian bytes of that
  pattern.
-/

/-! ## Bit-level helper lemmas -/

/-- The bits of `a * 2 ^ k + b` with `b < 2 ^ k`: low `k` bits come from
`b`, the rest from `a`. -/
lemma testBit_mul_pow_add (a b k i : Nat) (hb : b < 2 ^ k) :
    (a * 2 ^ k + b).testBit i = if i < k then b.testBit i else a.testBit (i - k) := by
  rcases lt_or_ge i k with h | h
  · rw [if_pos h]
    have e2 : (2 : Nat) ^ k = 2 ^ (k - i) * 2 ^ i := by
      rw [← pow_add]
      congr 1
      omega
    have e1 : (a * 2 ^ k + b) / 2 ^ i = b / 2 ^ i + a * 2 ^ (k - i) := by
      rw [e2, ← mul_assoc, add_comm, Nat.add_mul_div_right _ _ (Nat.pos_pow_of_pos i (by norm_num))]
    have e3 : ∃ m, k - i = m + 1 := ⟨k - i - 1, by omega⟩
    obtain ⟨m, hm⟩ := e3
    rw [Nat.testBit_to_div_mod, Nat.testBit_to_div_mod, e1, hm]
    have e4 : a * 2 ^ (m + 1) = 2 * (a * 2 ^ m) := by ring
    rw [e4, decide_eq_decide]
    omega
  · rw [if_neg (by omega)]
    have e2 : (2 : Nat) ^ i = 2 ^ k * 2 ^ (i - k) := by
      rw [← pow_add]
      congr 1
      omega
    have e1 : (a * 2 ^ k + b) / 2 ^ i = a / 2 ^ (i - k) := by
      rw [e2, ← Nat.div_div_eq_div_mul]
      congr 1
      rw [add_comm, Nat.add_mul_div_right _ _ (Nat.pos_pow_of_pos k (by norm_num)),
        Nat.div_eq_of_lt hb]
      omega
    rw [Nat.testBit_to_div_mod, Nat.testBit_to_div_mod, e1]

/-- Bitwise-or is bit concatenation: `(a <<< k) ||| b = a * 2 ^ k + b`
whenever `b` fits in the low `k` bits. -/
lemma shiftLeft_lor_eq_add (a b k : Nat) (hb : b < 2 ^ k) : (a <<< k) ||| b = a * 2 ^ k + b := by
  apply Nat.eq_of_testBit_eq
  intro i
  rw [Nat.testBit_lor, Nat.testBit_shiftLeft, testBit_mul_pow_add a b k i hb]
  rcases lt_or_ge i k with h | h
  · rw [if_pos h]
    have hd : decide (i ≥ k) = false := by
      simp
      omega
    rw [hd]
    simp
  · rw [if_neg (by omega)]
    have hb2 : b < 2 ^ i := lt_of_lt_of_le hb (Nat.pow_le_pow_right (by norm_num) h)
    rw [Nat.testBit_eq_false_of_lt hb2]
    have hd : decide (i ≥ k) = true := by
      simp
      omega
    rw [hd]
    simp

set_option maxRecDepth 4000 in
/-- Masking a byte with `0xF0` keeps its high nibble. -/
lemma and_240_eq (b : Nat) (hb : b < 256) : b &&& 240 = b / 16 * 16 := by
  revert hb
  revert b
  decide

/-! ## Two's-complement interpretations -/

/-- The `i32` value of a 32-bit pattern (two's complement). -/
def toSigned32 (n : Nat) : Int :=
  if n % 2 ^ 32 < 2 ^ 31 then (n % 2 ^ 32 : Nat) else (n % 2 ^ 32 : Nat) - 2 ^ 32

/-- The two's-complement interpretation of a 20-bit field. -/
def toSigned20 (n : Nat) : Int :=
  if n % 2 ^ 20 < 2 ^ 19 then (n % 2 ^ 20 : Nat) else (n % 2 ^ 20 : Nat) - 2 ^ 20

/-- Arithmetic (sign-propagating) right shift of an integer: floor
division by `2 ^ k`, which is how two's-complement `>>` behaves. -/
def asr (x : Int) (k : Nat) : Int := Int.fdiv x (2 ^ k)

/-! ## Device configuration (`adxl355-rs` `conf` module)

The `conf.rs` and `register.rs` modules of `adxl355-rs` are not under
`src/`; only `lib.rs` is.  The enumerations and value maps below are
therefore modelled from the spec (§3, §4.1, §6) and from how `lib.rs`
and `accel.rs` use them.  No claim depends on the concrete register
values. -/

/-- Output-data-rate / low-pass-filter enumeration.  The variant names
are exactly those matched by `get_odr` in `accel-daemon/src/accel.rs`. -/
inductive ODR_LPF
  | ODR_4000_Hz
  | ODR_2000_Hz
  | ODR_1000_Hz
  | ODR_500_Hz
  | ODR_250_Hz
  | ODR_125_Hz
  | ODR_62_5_Hz
  | ODR_31_25_Hz
  | ODR_15_625_Hz
  | ODR_7_813_Hz
  | ODR_3_906_Hz
deriving DecidableEq

/-- Modelled from the spec: high-pass-filter corner enumeration (§3);
`accel.rs` names the variant `_0_238_ODR`. -/
inductive HPF_CORNER
  | off
  | _0_238_ODR
deriving DecidableEq

/-- Measurement range enumeration (±2g / ±4g / ±8g). -/
inductive Range
  | _2G
  | _4G
  | _8G
deriving DecidableEq

/-- Modelled from the spec: the driver `Config` with optional fields,
consumed by `Adxl355::new` via `unwrap_or_default`. -/
structure Config where
  odr : Option ODR_LPF
  hpf : Option HPF_CORNER
  range : Option Range
deriving DecidableEq

/-- Modelled from the spec: scale factor in g per range, used by
normalization — scale(±2G)=2, scale(±4G)=4, scale(±8G)=8 (§8). -/
def rangeScale : Range → ℚ
  | Range._2G => 2
  | Range._4G => 4
  | Range._8G => 8

/-- Modelled from the spec: nominal output data rate in Hz per ODR
variant (names encode the rate). -/
def odrHz : ODR_LPF → ℚ
  | ODR_LPF.ODR_4000_Hz => 4000
  | ODR_LPF.ODR_2000_Hz => 2000
  | ODR_LPF.ODR_1000_Hz => 1000
  | ODR_LPF.ODR_500_Hz => 500
  | ODR_LPF.ODR_250_Hz => 250
  | ODR_LPF.ODR_125_Hz => 125
  | ODR_LPF.ODR_62_5_Hz => 125 / 2
  | ODR_LPF.ODR_31_25_Hz => 125 / 4
  | ODR_LPF.ODR_15_625_Hz => 125 / 8
  | ODR_LPF.ODR_7_813_Hz => 7813 / 1000
  | ODR_LPF.ODR_3_906_Hz => 3906 / 1000

/-- Modelled from the spec: register value of a range setting (§6
"documented value-to-register mappings"); the value itself decides no
claim. -/
def rangeVal : Range → Nat
  | Range._2G => 1
  | Range._4G => 2
  | Range._8G => 3

/-- Modelled from the spec: register value of an ODR setting. -/
def odrVal : ODR_LPF → Nat
  | ODR_LPF.ODR_4000_Hz => 0
  | ODR_LPF.ODR_2000_Hz => 1
  | ODR_LPF.ODR_1000_Hz => 2
  | ODR_LPF.ODR_500_Hz => 3
  | ODR_LPF.ODR_250_Hz => 4
  | ODR_LPF.ODR_125_Hz => 5
  | ODR_LPF.ODR_62_5_Hz => 6
  | ODR_LPF.ODR_31_25_Hz => 7
  | ODR_LPF.ODR_15_625_Hz => 8
  | ODR_LPF.ODR_7_813_Hz => 9
  | ODR_LPF.ODR_3_906_Hz => 10

/-- Modelled from the spec: register value of an HPF corner setting. -/
def hpfVal : HPF_CORNER → Nat
  | HPF_CORNER.off => 0
  | HPF_CORNER._0_238_ODR => 6

/-- Modelled from the spec: register addresses (the `register` module
is not under `src/`; addresses follow the ADXL355 datasheet the crate
references).  No claim depends on the numeric values. -/
def Register.DEVID : Nat := 0x02

/-- Temperature register (high byte) address. -/
def Register.TEMP2 : Nat := 0x06

/-- X-axis data register (byte 3) address. -/
def Register.XDATA3 : Nat := 0x08

/-- Filter configuration register address. -/
def Register.FILTER : Nat := 0x28

/-- Range configuration register address. -/
def Register.RANGE : Nat := 0x2C

/-- Power control register address. -/
def Register.POWER_CTL : Nat := 0x2D

/-! ## The driver (`adxl355-rs/src/lib.rs`) -/

/-- `const SPI_READ: u8 = 0x01` (lib.rs:71). -/
def SPI_READ : Nat := 0x01

/-- `const SPI_WRITE: u8 = 0x00` (lib.rs:72). -/
def SPI_WRITE : Nat := 0x00

/-- `const EXPECTED_DEVICE_ID: u8 = 0xED` (lib.rs:74). -/
def EXPECTED_DEVICE_ID : Nat := 0xED

/-- `const ACCEL_MAX_I20: u32 = 524_287` (lib.rs:76). -/
def ACCEL_MAX_I20 : Nat := 524287

/-- The SPI bus abstraction (`embedded-hal` `SpiBus<u8>`): `write`
sends bytes and reports success; `transfer` is `transfer_in_place` —
it returns the bus state after the transaction, the buffer contents
after the transaction, and a success flag.  On a failed transaction the
returned buffer models whatever the failed transfer left behind. -/
structure SpiModel (σ : Type) where
  write : σ → List Nat → σ × Bool
  transfer : σ → List Nat → σ × List Nat × Bool

/-- The driver handle: SPI bus state plus the applied configuration
(lib.rs:79-86). -/
structure Adxl355 (σ : Type) where
  spi : σ
  odr : ODR_LPF
  hpf : HPF_CORNER
  range : Range
deriving DecidableEq

/-- `write_reg` (lib.rs:146-150): one 2-byte write, error propagated. -/
def write_reg (M : SpiModel σ) (d : Adxl355 σ) (reg value : Nat) :
    Adxl355 σ × Except Unit Unit :=
  let res := M.write d.spi [(reg <<< 1) ||| SPI_WRITE, value]
  ({d with spi := res.1}, if res.2 then Except.ok () else Except.error ())

/-- `read_reg` (lib.rs:152-157): one 2-byte transfer, error propagated
via `?`; on success the returned byte is `bytes[1]`. -/
def read_reg (M : SpiModel σ) (d : Adxl355 σ) (reg : Nat) :
    Adxl355 σ × Except Unit Nat :=
  let res := M.transfer d.spi [(reg <<< 1) ||| SPI_READ, 0]
  ({d with spi := res.1},
    if res.2.2 then Except.ok (res.2.1.getD 1 0) else Except.error ())

/-- `read` (lib.rs:159-161): a transfer whose error is discarded by
`.ok()` — the success flag is dropped and the (possibly failed)
transaction's buffer is used as-is. -/
def read (M : SpiModel σ) (d : Adxl355 σ) (bytes : List Nat) :
    Adxl355 σ × List Nat :=
  ({d with spi := (M.transfer d.spi bytes).1}, (M.transfer d.spi bytes).2.1)

/-- `get_device_id` (lib.rs:139-144). -/
def get_device_id (M : SpiModel σ) (d : Adxl355 σ) : Adxl355 σ × Except Unit Nat :=
  read_reg M d Register.DEVID

/-- `start` (lib.rs:123-125): single `POWER_CTL` write. -/
def start (M : SpiModel σ) (d : Adxl355 σ) : Adxl355 σ × Except Unit Unit :=
  write_reg M d Register.POWER_CTL 0

/-- `read_temp_raw` (lib.rs:128-136): 3-byte transfer through the
error-discarding `read`, then 12-bit reassembly. -/
def read_temp_raw (M : SpiModel σ) (d : Adxl355 σ) : Adxl355 σ × Nat :=
  let r := read M d [(Register.TEMP2 <<< 1) ||| SPI_READ, 0, 0]
  let temp_h := ((r.2.getD 1 0) &&& 0x0F) <<< 8
  let temp_l := (r.2.getD 2 0) &&& 0x00FF
  (r.1, temp_h ||| temp_l)

/-- `Adxl355::new` (lib.rs:99-120): build the handle from the config
defaults, read the device id, compare it against
`EXPECTED_DEVICE_ID` — the mismatch branch (lib.rs:109-111) is empty in
the source, so the comparison has no effect on control flow — then
apply the FILTER and RANGE register writes, propagating their errors. -/
def Adxl355.new (M : SpiModel σ) (spi0 : σ) (config : Config) :
    Except Unit (Adxl355 σ) :=
  let d : Adxl355 σ :=
    ⟨spi0, config.odr.getD ODR_LPF.ODR_4000_Hz, config.hpf.getD HPF_CORNER.off,
      config.range.getD Range._2G⟩
  let r1 := get_device_id M d
  match r1.2 with
  | Except.error e => Except.error e
  | Except.ok _id =>
    let r2 := write_reg M r1.1 Register.FILTER
      ((hpfVal r1.1.hpf <<< 4) ||| odrVal r1.1.odr)
    match r2.2 with
    | Except.error e => Except.error e
    | Except.ok _ =>
      let r3 := write_reg M r2.1 Register.RANGE (rangeVal r2.1.range)
      match r3.2 with
      | Except.error e => Except.error e
      | Except.ok _ => Except.ok r3.1

/-- Raw acceleration triple (`I32x3` from the `accelerometer` crate),
components as mathematical integers carrying `i32` values. -/
structure I32x3 where
  x : Int
  y : Int
  z : Int
deriving DecidableEq

/-- Normalized acceleration triple (`F32x3`); `f32` modelled as `ℚ`. -/
structure F32x3 where
  x : ℚ
  y : ℚ
  z : ℚ
deriving DecidableEq

/-- One axis of the `accel_raw` decode (lib.rs:182-193):
`(((b0 as i32) << 24) | ((b1 as i32) << 16) | ((b2 & 0xF0) as i32) << 8) >> 12`
with `i32` arithmetic right shift. -/
def decodeAxis (b0 b1 b2 : Nat) : Int :=
  asr (toSigned32 ((b0 <<< 24) ||| (b1 <<< 16) ||| ((b2 &&& 0xF0) <<< 8))) 12

/-- `accel_raw` (lib.rs:173-197): a single 10-byte transaction via the
error-discarding `read` (9 data bytes after the command byte), then the
per-axis shift decode; always returns `Ok`. -/
def accel_raw (M : SpiModel σ) (d : Adxl355 σ) : Adxl355 σ × Except Unit I32x3 :=
  let r := read M d (((Register.XDATA3 <<< 1) ||| SPI_READ) :: List.replicate 9 0)
  let g := fun i => r.2.getD i 0
  (r.1, Except.ok
    ⟨decodeAxis (g 1) (g 2) (g 3), decodeAxis (g 4) (g 5) (g 6),
      decodeAxis (g 7) (g 8) (g 9)⟩)

/-- `accel_norm` (lib.rs:211-220): raw read (error propagated by `?`),
then each axis divided by `ACCEL_MAX_I20` and scaled by the range. -/
def accel_norm (M : SpiModel σ) (d : Adxl355 σ) : Adxl355 σ × Except Unit F32x3 :=
  let r := accel_raw M d
  (r.1, r.2.map (fun raw =>
    ⟨(raw.x : ℚ) / (ACCEL_MAX_I20 : ℚ) * rangeScale r.1.range,
      (raw.y : ℚ) / (ACCEL_MAX_I20 : ℚ) * rangeScale r.1.range,
      (raw.z : ℚ) / (ACCEL_MAX_I20 : ℚ) * rangeScale r.1.range⟩))

/-- `sample_rate` (lib.rs:207-209): returns the configured ODR. -/
def sample_rate (M : SpiModel σ) (d : Adxl355 σ) : Adxl355 σ × Except Unit ℚ :=
  (d, Except.ok (odrHz d.odr))

/-! ## The `AccelData` record (`accel-data/src/lib.rs`) -/

/-- `AccelData` (accel-data/src/lib.rs:7-22): device index, gap in
microseconds since the previous data point, and the three axis values.
The payload type is a parameter: the engine model instantiates `α := ℚ`
(f32 values as exact rationals), the serialization model instantiates
`α := Nat` (each f32 carried as its IEEE-754 bit pattern, which is what
`f32::to_le_bytes` serializes). -/
structure AccelData (α : Type) where
  idx : Nat
  gap : Nat
  x : α
  y : α
  z : α
deriving DecidableEq

/-- `u32::to_le_bytes`: the four little-endian bytes of a 32-bit value. -/
def uToLe4 (n : Nat) : List Nat :=
  [n % 256, n / 2 ^ 8 % 256, n / 2 ^ 16 % 256, n / 2 ^ 24 % 256]

/-- `AccelData::as_bytes` (accel-data/src/lib.rs:37-45): `idx`, `gap`,
`x`, `y`, `z` serialized in order, four little-endian bytes each. -/
def AccelData.as_bytes (d : AccelData Nat) : List Nat :=
  uToLe4 d.idx ++ uToLe4 d.gap ++ uToLe4 d.x ++ uToLe4 d.y ++ uToLe4 d.z

/-- Little-endian recomposition of a byte list (the spec's reading of a
little-endian record): byte 0 is least significant. -/
def leVal (l : List Nat) : Nat :=
  l.foldr (fun b acc => b + 256 * acc) 0

/-! ## The acquisition engine (`accel-daemon/src/accel.rs`) -/

/-- `get_odr` (accel.rs:17-31): nominal sample period in microseconds
per ODR setting. -/
def get_odr : ODR_LPF → Nat
  | ODR_LPF.ODR_4000_Hz => 250
  | ODR_LPF.ODR_2000_Hz => 500
  | ODR_LPF.ODR_1000_Hz => 1000
  | ODR_LPF.ODR_500_Hz => 2000
  | ODR_LPF.ODR_250_Hz => 4000
  | ODR_LPF.ODR_125_Hz => 8000
  | ODR_LPF.ODR_62_5_Hz => 16000
  | ODR_LPF.ODR_31_25_Hz => 32000
  | ODR_LPF.ODR_15_625_Hz => 64000
  | ODR_LPF.ODR_7_813_Hz => 128000
  | ODR_LPF.ODR_3_906_Hz => 256000

/-- `const ACCEL_ODR: ODR_LPF = ODR_LPF::ODR_1000_Hz` (accel.rs:14). -/
def ACCEL_ODR : ODR_LPF := ODR_LPF.ODR_1000_Hz

/-- `AccelDataRate` (accel.rs:40-43): the rate tracker's shared state —
an optional window-start instant and a sample counter, both updated
atomically in the source.  Instants are
microseconds on a monotone clock. -/
structure AccelDataRate where
  last : Option Nat
  count : Nat
deriving DecidableEq

/-- The rate-tracker part of `accelerator_callback` (accel.rs:155,
164-185): increment the counter, then `fetch_update` the window start —
install `now` if absent; if at least one second elapsed, reset the
counter to zero and emit `count / elapsed-seconds`; otherwise keep the
old window.  `as_secs_f32` is modelled as exact division by `10 ^ 6`. -/
def rateUpdate (now : Nat) (r : AccelDataRate) : AccelDataRate × Option ℚ :=
  let count1 := r.count + 1
  match r.last with
  | none => (⟨some now, count1⟩, none)
  | some p =>
    let dur : ℚ := ((now - p : Nat) : ℚ) / 1000000
    if dur < 1 then (⟨some p, count1⟩, none)
    else (⟨some now, 0⟩, some ((count1 : ℚ) / dur))

/-- The complete effect of one `accelerator_callback` invocation
(accel.rs:147-204). -/
structure CbResult where
  past : Option Nat
  rate : AccelDataRate
  sent : List (AccelData ℚ)
  emitted : Option ℚ
deriving DecidableEq

/-- `accelerator_callback` (accel.rs:147-204), as a function of the
trigger instant `now`, the shared `TimestampSlot` contents `past`, the
rate-tracker state, the result of `accel_norm` (`none` models a failed
read), the broadcast channel's `receiver_count`, and the list of
readings already published to the channel.  The source computes
`gap = past.swap(None).map(elapsed µs).unwrap_or(get_odr(ACCEL_ODR))`,
runs the rate tracker, and sends a reading only when
`receiver_count() > 0`. -/
def accelerator_callback (index now : Nat) (past : Option Nat)
    (rate : AccelDataRate) (readResult : Option (ℚ × ℚ × ℚ))
    (receiverCount : Nat) (sent : List (AccelData ℚ)) : CbResult :=
  let gap := match past with
    | some p => (now - p) % 2 ^ 32
    | none => get_odr ACCEL_ODR
  let ru := rateUpdate now rate
  let sent' := match readResult with
    | some v =>
      if receiverCount > 0 then sent ++ [⟨index, gap, v.1, v.2.1, v.2.2⟩] else sent
    | none => sent
  ⟨none, ru.1, sent', ru.2⟩

/-- One iteration of the polling loop of `accelerator_task`
(accel.rs:233-258): on a successful read, the gap is the elapsed time
since the locally held previous instant, which is then replaced by
`tnow`; the reading is sent only when `receiver_count() > 0`.  On a
failed read nothing changes. -/
def accelerator_task_step (index tnow prev : Nat)
    (readResult : Option (ℚ × ℚ × ℚ)) (receiverCount : Nat)
    (sent : List (AccelData ℚ)) : Nat × List (AccelData ℚ) :=
  match readResult with
  | some v =>
    let dur := (tnow - prev) % 2 ^ 32
    (tnow,
      if receiverCount > 0 then sent ++ [⟨index, dur, v.1, v.2.1, v.2.2⟩] else sent)
  | none => (prev, sent)

/-! ## Decode correctness helpers -/

/-- The 20-bit field of one axis as the spec reads it: the first byte
holds bits 19–12, the second bits 11–4, and the high nibble of the
third byte bits 3–0. -/
def field20 (b0 b1 b2 : Nat) : Nat := b0 * 2 ^ 12 + b1 * 2 ^ 4 + b2 / 16

/-- The 32-bit word assembled by `accel_raw` is the 20-bit field
left-aligned, i.e. multiplied by `2 ^ 12`. -/
lemma word_eq_field_mul (b0 b1 b2 : Nat) (hb1 : b1 < 256) (hb2 : b2 < 256) :
    (b0 <<< 24) ||| (b1 <<< 16) ||| ((b2 &&& 0xF0) <<< 8) = field20 b0 b1 b2 * 2 ^ 12 := by
  have h1 : b0 <<< 24 ||| b1 <<< 16 = b0 * 2 ^ 24 + b1 * 2 ^ 16 := by
    rw [shiftLeft_lor_eq_add b0 (b1 <<< 16) 24 (by rw [Nat.shiftLeft_eq]; omega),
      Nat.shiftLeft_eq]
  have h2 : b0 * 2 ^ 24 + b1 * 2 ^ 16 = (b0 * 2 ^ 8 + b1) <<< 16 := by
    rw [Nat.shiftLeft_eq]
    ring
  have h3 : (b2 &&& 0xF0) <<< 8 = b2 / 16 * 2 ^ 12 := by
    rw [Nat.shiftLeft_eq, and_240_eq b2 hb2]
    ring
  rw [h1, h2, h3]
  rw [shiftLeft_lor_eq_add _ _ 16 (by have hm : b2 / 16 < 16 := by omega
                                      nlinarith)]
  unfold field20
  ring

/-- `accel_raw`'s shift-based decode computes exactly the
two's-complement value of the 20-bit field. -/
lemma decode_eq (b0 b1 b2 : Nat) (hb1 : b1 < 256) (hb2 : b2 < 256) (hb0 : b0 < 256) :
    decodeAxis b0 b1 b2 = toSigned20 (field20 b0 b1 b2) := by
  have hm : b2 / 16 < 16 := by omega
  have hf : field20 b0 b1 b2 < 2 ^ 20 := by
    unfold field20
    omega
  have hword : field20 b0 b1 b2 * 2 ^ 12 < 2 ^ 32 := by nlinarith
  unfold decodeAxis asr
  rw [word_eq_field_mul b0 b1 b2 hb1 hb2]
  set f := field20 b0 b1 b2 with hfdef
  unfold toSigned32 toSigned20
  rw [Nat.mod_eq_of_lt hword, Nat.mod_eq_of_lt hf]
  rcases lt_or_ge f (2 ^ 19) with h | h
  · rw [if_pos (by nlinarith), if_pos h]
    push_cast
    rw [Int.mul_fdiv_cancel _ (by norm_num)]
  · rw [if_neg (by push_cast; nlinarith), if_neg (by omega)]
    have hc : ((f * 2 ^ 12 : Nat) : Int) - 2 ^ 32 = ((f : Int) - 2 ^ 20) * 2 ^ 12 := by
      push_cast
      ring
    rw [hc, Int.mul_fdiv_cancel _ (by norm_num)]

/-- A two's-complement 20-bit value lies in `[-2 ^ 19, 2 ^ 19 - 1]`. -/
lemma toSigned20_bounds (n : Nat) : -524288 ≤ toSigned20 n ∧ toSigned20 n ≤ 524287 := by
  unfold toSigned20
  have h := Nat.mod_lt n (show 0 < 2 ^ 20 by norm_num)
  split
  · omega
  · omega

/-- Any decoded axis value lies in the signed 20-bit range. -/
lemma decodeAxis_bounds (b0 b1 b2 : Nat) (hb0 : b0 < 256) (hb1 : b1 < 256) (hb2 : b2 < 256) :
    -524288 ≤ decodeAxis b0 b1 b2 ∧ decodeAxis b0 b1 b2 ≤ 524287 := by
  rw [decode_eq b0 b1 b2 hb1 hb2 hb0]
  exact toSigned20_bounds _

/-- An indexed element of a byte-bounded list is byte-bounded. -/
lemma getD_lt_256 (l : List Nat) (i : Nat) (h : ∀ b ∈ l, b < 256) : l.getD i 0 < 256 := by
  rcases lt_or_ge i l.length with hi | hi
  · rw [List.getD_eq_getElem l 0 hi]
    exact h _ (List.getElem_mem hi)
  · rw [List.getD_eq_default l 0 hi]
    norm_num

/-! ## Concrete bus models (for witnesses and counterexamples) -/

/-- A bus that always succeeds and always returns the same buffer. -/
def spiConst (bytes : List Nat) : SpiModel Unit :=
  ⟨fun _ _ => ((), true), fun _ _ => ((), bytes, true)⟩

/-- A bus on which every transaction fails; a failed transfer leaves
the buffer zero-filled. -/
def spiFail : SpiModel Unit :=
  ⟨fun _ _ => ((), false), fun _ bs => ((), bs.map (fun _ => 0), false)⟩

/-- Wrap a bus model so the state also counts the number of
transactions performed (used to show the driver performs no retries). -/
def countingModel (M : SpiModel σ) : SpiModel (σ × Nat) where
  write := fun p bs => (((M.write p.1 bs).1, p.2 + 1), (M.write p.1 bs).2)
  transfer := fun p bs =>
    (((M.transfer p.1 bs).1, p.2 + 1),
      (M.transfer p.1 bs).2.1, (M.transfer p.1 bs).2.2)

/-- Attach a transaction counter to a driver handle. -/
def withCounter (d : Adxl355 σ) (n : Nat) : Adxl355 (σ × Nat) :=
  ⟨(d.spi, n), d.odr, d.hpf, d.range⟩

/-- A fixed sample handle over the trivial bus state. -/
def d0 : Adxl355 Unit :=
  ⟨(), ODR_LPF.ODR_1000_Hz, HPF_CORNER._0_238_ODR, Range._2G⟩

/-! ## Spec-side definitions for refinement claims -/

/-- The spec's normalization formula (§8): `raw / 524287.0 × scale(range)`. -/
def specNormalized (raw : Int) (r : Range) : ℚ :=
  (raw : ℚ) / 524287 * rangeScale r

deriving instance DecidableEq for Except

/-! ## Claims -/

/-- Claim C2, counterexample: on a bus where the 9-data-byte transaction
fails (and zero-fills the buffer), `accel_norm` still returns `Ok` —
the error is discarded by `read`'s `.ok()` (lib.rs:160) — contradicting
"read_normalized fails with a device/bus error when the underlying
9-data-byte transaction fails". -/
theorem c2_counterexample :
    (accel_raw spiFail d0).2 = Except.ok ⟨0, 0, 0⟩ ∧
    (accel_norm spiFail d0).2.isOk = true ∧
    ((spiFail.transfer () (((Register.XDATA3 <<< 1) ||| SPI_READ) :: List.replicate 9 0)).2.2
      = false) :=
  ⟨by decide, rfl, rfl⟩

/-- Claim C2 (amended): `accel_raw` and `accel_norm` never return an
error — a failed bus transaction on the data read is discarded and
decoding proceeds on whatever the buffer holds — they never fail on
out-of-range input, and the driver performs no retries: exactly one bus
transaction per `accel_raw` call. -/
theorem c2_read_errors_swallowed (σ : Type) (M : SpiModel σ) (d : Adxl355 σ) (n : Nat) :
    (accel_raw M d).2.isOk = true ∧
    (accel_norm M d).2.isOk = true ∧
    (accel_raw (countingModel M) (withCounter d n)).1.spi.2 = n + 1 :=
  ⟨rfl, rfl, rfl⟩

/-- Claim C3: `Adxl355::new` reads the device identity and compares it
with `EXPECTED_DEVICE_ID = 0xED`, but the mismatch branch
(lib.rs:109-111) is empty — on a bus reporting identity `0x00`,
initialization still succeeds and returns a handle, contradicting the
claim that initialization fails on mismatch. -/
theorem c3_mismatch_not_fatal :
    (get_device_id (spiConst [0, 0]) d0).2 = Except.ok 0 ∧
    (0 : Nat) ≠ EXPECTED_DEVICE_ID ∧
    (Adxl355.new (spiConst [0, 0]) () ⟨none, none, none⟩).isOk = true := by
  decide

/-- Claim C4: for every triple of raw data bytes of one axis, the value
decoded by `accel_raw` equals the claim's formula — the left-aligned
32-bit word arithmetically right-shifted by 12 — and that equals the
two's-complement interpretation of the 20-bit field, over the full
range of byte triples. -/
theorem c4_sign_extension_bit_exact (b0 b1 b2 : Nat)
    (h0 : b0 < 256) (h1 : b1 < 256) (h2 : b2 < 256) :
    decodeAxis b0 b1 b2 =
      asr (toSigned32 ((b0 <<< 24) ||| (b1 <<< 16) ||| ((b2 &&& 0xF0) <<< 8))) 12 ∧
    decodeAxis b0 b1 b2 = toSigned20 (field20 b0 b1 b2) :=
  ⟨rfl, decode_eq b0 b1 b2 h1 h2 h0⟩

/-- Claim C4, witness: the exact boundary values `2 ^ 19 - 1` and
`-2 ^ 19` are decoded bit-exactly. -/
theorem c4_sign_extension_witness :
    decodeAxis 127 255 255 = 2 ^ 19 - 1 ∧ decodeAxis 128 0 0 = -2 ^ 19 := by
  constructor
  · rw [(c4_sign_extension_bit_exact 127 255 255 (by norm_num) (by norm_num) (by norm_num)).2]
    decide
  · rw [(c4_sign_extension_bit_exact 128 0 0 (by norm_num) (by norm_num) (by norm_num)).2]
    decide

/-- Claim C5: the normalized output of `accel_norm` is exactly the
spec's formula `raw / 524287.0 × scale(range)` applied identically to
each axis of the raw reading, with scale(±2G)=2, scale(±4G)=4,
scale(±8G)=8. -/
theorem c5_normalization_formula (σ : Type) (M : SpiModel σ) (d : Adxl355 σ) :
    (accel_norm M d).2 = (accel_raw M d).2.map
      (fun raw => ⟨specNormalized raw.x d.range, specNormalized raw.y d.range,
        specNormalized raw.z d.range⟩) ∧
    rangeScale Range._2G = 2 ∧ rangeScale Range._4G = 4 ∧ rangeScale Range._8G = 8 := by
  refine ⟨?_, rfl, rfl, rfl⟩
  have h : (accel_norm M d).2 = (accel_raw M d).2.map (fun raw =>
      (⟨(raw.x : ℚ) / (ACCEL_MAX_I20 : ℚ) * rangeScale d.range,
        (raw.y : ℚ) / (ACCEL_MAX_I20 : ℚ) * rangeScale d.range,
        (raw.z : ℚ) / (ACCEL_MAX_I20 : ℚ) * rangeScale d.range⟩ : F32x3)) := rfl
  rw [h]
  rcases (accel_raw M d).2 with e | raw
  · rfl
  · simp only [Except.map, specNormalized]
    norm_num [ACCEL_MAX_I20]

/-- The magnitude bound for one normalized axis. -/
lemma norm_axis_bound (raw : Int) (r : Range) (h1 : -524288 ≤ raw) (h2 : raw ≤ 524287) :
    |(raw : ℚ) / (ACCEL_MAX_I20 : ℚ) * rangeScale r| ≤ rangeScale r * (524288 / 524287) := by
  have habs : |(raw : ℚ)| ≤ 524288 := by
    rw [abs_le]
    constructor
    · exact_mod_cast h1
    · exact_mod_cast le_trans h2 (by norm_num)
  have hs : 0 < rangeScale r := by
    cases r <;> norm_num [rangeScale]
  have hmax : (ACCEL_MAX_I20 : ℚ) = 524287 := by norm_num [ACCEL_MAX_I20]
  rw [abs_mul, abs_div, hmax, abs_of_pos hs, mul_comm]
  apply mul_le_mul_of_nonneg_left _ hs.le
  rw [abs_of_pos (by norm_num : (0 : ℚ) < 524287)]
  gcongr

/-- Claim C9: every driver operation other than initialization leaves
the configuration fields (`odr`, `hpf`, `range`) of the handle
unchanged — the configuration is read-only after `Adxl355.new`. -/
theorem c9_config_read_only (σ : Type) (M : SpiModel σ) (d : Adxl355 σ) :
    ((start M d).1.odr = d.odr ∧ (start M d).1.hpf = d.hpf ∧
      (start M d).1.range = d.range) ∧
    ((get_device_id M d).1.odr = d.odr ∧ (get_device_id M d).1.hpf = d.hpf ∧
      (get_device_id M d).1.range = d.range) ∧
    ((read_temp_raw M d).1.odr = d.odr ∧ (read_temp_raw M d).1.hpf = d.hpf ∧
      (read_temp_raw M d).1.range = d.range) ∧
    ((accel_raw M d).1.odr = d.odr ∧ (accel_raw M d).1.hpf = d.hpf ∧
      (accel_raw M d).1.range = d.range) ∧
    ((accel_norm M d).1.odr = d.odr ∧ (accel_norm M d).1.hpf = d.hpf ∧
      (accel_norm M d).1.range = d.range) ∧
    (sample_rate M d).1 = d :=
  ⟨⟨rfl, rfl, rfl⟩, ⟨rfl, rfl, rfl⟩, ⟨rfl, rfl, rfl⟩, ⟨rfl, rfl, rfl⟩,
    ⟨rfl, rfl, rfl⟩, rfl⟩

/-- Claim C10: whatever bytes the bus leaves in the buffer (any of the
2^72 combinations, including a zero-filled buffer after a failed
transfer), every axis decoded by `accel_raw` lies in the signed 20-bit
range `[-524288, 524287]`, and every normalized axis from `accel_norm`
has magnitude at most `scale(range) × 524288 / 524287`. -/
theorem c10_decode_in_range (σ : Type) (M : SpiModel σ) (d : Adxl355 σ)
    (HM : ∀ s bs b, b ∈ (M.transfer s bs).2.1 → b < 256) :
    ∃ v, (accel_raw M d).2 = Except.ok v ∧
      (-524288 ≤ v.x ∧ v.x ≤ 524287) ∧
      (-524288 ≤ v.y ∧ v.y ≤ 524287) ∧
      (-524288 ≤ v.z ∧ v.z ≤ 524287) ∧
      ∃ w, (accel_norm M d).2 = Except.ok w ∧
        |w.x| ≤ rangeScale d.range * (524288 / 524287) ∧
        |w.y| ≤ rangeScale d.range * (524288 / 524287) ∧
        |w.z| ≤ rangeScale d.range * (524288 / 524287) := by
  have hb : ∀ i, ((M.transfer d.spi
      (((Register.XDATA3 <<< 1) ||| SPI_READ) :: List.replicate 9 0)).2.1).getD i 0 < 256 :=
    fun i => getD_lt_256 _ i (fun b hbm => HM _ _ b hbm)
  have hx := decodeAxis_bounds _ _ _ (hb 1) (hb 2) (hb 3)
  have hy := decodeAxis_bounds _ _ _ (hb 4) (hb 5) (hb 6)
  have hz := decodeAxis_bounds _ _ _ (hb 7) (hb 8) (hb 9)
  refine ⟨_, rfl, ⟨hx.1, hx.2⟩, ⟨hy.1, hy.2⟩, ⟨hz.1, hz.2⟩, _, rfl, ?_, ?_, ?_⟩
  · exact norm_axis_bound _ _ hx.1 hx.2
  · exact norm_axis_bound _ _ hy.1 hy.2
  · exact norm_axis_bound _ _ hz.1 hz.2

/-- Claim C10, witness: a concrete byte-valued bus model satisfies the
hypothesis and the bounds. -/
theorem c10_decode_in_range_witness :
    (∀ s bs b, b ∈ ((spiConst [0, 16, 32, 48, 64, 80, 96, 112, 128, 144]).transfer s bs).2.1 →
      b < 256) ∧
    (∃ v, (accel_raw (spiConst [0, 16, 32, 48, 64, 80, 96, 112, 128, 144]) d0).2 =
        Except.ok v ∧
      (-524288 ≤ v.x ∧ v.x ≤ 524287) ∧
      (-524288 ≤ v.y ∧ v.y ≤ 524287) ∧
      (-524288 ≤ v.z ∧ v.z ≤ 524287) ∧
      ∃ w, (accel_norm (spiConst [0, 16, 32, 48, 64, 80, 96, 112, 128, 144]) d0).2 =
          Except.ok w ∧
        |w.x| ≤ rangeScale d0.range * (524288 / 524287) ∧
        |w.y| ≤ rangeScale d0.range * (524288 / 524287) ∧
        |w.z| ≤ rangeScale d0.range * (524288 / 524287)) := by
  have hM : ∀ s bs b,
      b ∈ ((spiConst [0, 16, 32, 48, 64, 80, 96, 112, 128, 144]).transfer s bs).2.1 →
      b < 256 := by
    intro s bs b hb
    simp [spiConst] at hb
    omega
  exact ⟨hM, c10_decode_in_range Unit _ d0 hM⟩

/-- Two consecutive callback invocations: synchronization point at
`t = 0` (the slot initially holds `some 0`, as set by
`accelerator_init`, accel.rs:53,88), triggers at `t = 300` and
`t = 800` microseconds, one subscriber, successful reads. -/
def cbFirst : CbResult :=
  accelerator_callback 0 300 (some 0) ⟨none, 0⟩ (some (0, 0, 0)) 1 []

/-- The second invocation, fed the slot and state left by the first. -/
def cbSecond : CbResult :=
  accelerator_callback 0 800 cbFirst.past cbFirst.rate (some (0, 0, 0)) 1 cbFirst.sent

/-- Claim C1: the callback does NOT exchange the slot with "now" — it
swaps in `None` (accel.rs:158), so after any invocation the slot is
empty, and every invocation after the first takes the
`unwrap_or(get_odr(ACCEL_ODR))` fallback: with triggers 500 µs apart
the second published gap is the constant 1000 µs, not the elapsed 500,
and the slot afterwards holds `none`, not `some 800`. -/
theorem c1_slot_never_rearmed :
    cbFirst.past = none ∧
    cbSecond.past = none ∧
    cbSecond.sent.map (fun rd => rd.gap) = [300, 1000] ∧
    800 - 300 = 500 ∧ (1000 : Nat) ≠ 500 ∧
    get_odr ACCEL_ODR = 1000 := by
  decide

/-- Claim C6: in both acquisition modes, after a successful sensor read
a reading is appended to the channel if and only if at least one
subscriber exists; with zero subscribers nothing is sent. -/
theorem c6_publish_iff_subscriber (idx now prev : Nat) (past : Option Nat)
    (r : AccelDataRate) (v : ℚ × ℚ × ℚ) (rc : Nat) (sent : List (AccelData ℚ)) :
    ((∃ rd, (accelerator_callback idx now past r (some v) rc sent).sent = sent ++ [rd]) ↔
      0 < rc) ∧
    (rc = 0 → (accelerator_callback idx now past r (some v) rc sent).sent = sent) ∧
    ((∃ rd, (accelerator_task_step idx now prev (some v) rc sent).2 = sent ++ [rd]) ↔
      0 < rc) ∧
    (rc = 0 → (accelerator_task_step idx now prev (some v) rc sent).2 = sent) := by
  have hc : (accelerator_callback idx now past r (some v) rc sent).sent =
      if rc > 0 then
        sent ++ [⟨idx,
          match past with
          | some p => (now - p) % 2 ^ 32
          | none => get_odr ACCEL_ODR, v.1, v.2.1, v.2.2⟩]
      else sent := rfl
  have ht : (accelerator_task_step idx now prev (some v) rc sent).2 =
      if rc > 0 then sent ++ [⟨idx, (now - prev) % 2 ^ 32, v.1, v.2.1, v.2.2⟩]
      else sent := rfl
  have hlen : ∀ rd : AccelData ℚ, sent ≠ sent ++ [rd] := by
    intro rd heq
    have hl := congrArg List.length heq
    simp at hl
  by_cases h : 0 < rc
  · rw [hc, ht, if_pos h, if_pos h]
    exact ⟨⟨fun _ => h, fun _ => ⟨_, rfl⟩⟩, fun h0 => absurd h0 (by omega),
      ⟨fun _ => h, fun _ => ⟨_, rfl⟩⟩, fun h0 => absurd h0 (by omega)⟩
  · rw [hc, ht, if_neg h, if_neg h]
    exact ⟨⟨fun he => absurd he.choose_spec (hlen he.choose), fun hcon => absurd hcon h⟩,
      fun _ => rfl,
      ⟨fun he => absurd he.choose_spec (hlen he.choose), fun hcon => absurd hcon h⟩,
      fun _ => rfl⟩

/-- Claim C7: on every trigger the rate tracker increments its counter;
with no window start it installs "now"; once the window has been open
at least one second (1 000 000 µs) it resets the window start to "now",
zeroes the counter, and emits previous-count / elapsed-seconds; and the
tracker state never affects the content of any published reading. -/
theorem c7_rate_tracker (now p c : Nat) :
    (rateUpdate now ⟨none, c⟩ = (⟨some now, c + 1⟩, none)) ∧
    (now - p < 1000000 →
      rateUpdate now ⟨some p, c⟩ = (⟨some p, c + 1⟩, none)) ∧
    (1000000 ≤ now - p →
      rateUpdate now ⟨some p, c⟩ = (⟨some now, 0⟩,
        some (((c + 1 : Nat) : ℚ) * 1000000 / ((now - p : Nat) : ℚ)))) ∧
    (∀ idx past readResult rc sent (r r2 : AccelDataRate),
      (accelerator_callback idx now past r readResult rc sent).sent =
      (accelerator_callback idx now past r2 readResult rc sent).sent) := by
  refine ⟨rfl, ?_, ?_, ?_⟩
  · intro hlt
    show (if ((now - p : Nat) : ℚ) / 1000000 < 1
        then ((⟨some p, c + 1⟩ : AccelDataRate), (none : Option ℚ))
        else (⟨some now, 0⟩,
          some (((c + 1 : Nat) : ℚ) / (((now - p : Nat) : ℚ) / 1000000)))) =
      (⟨some p, c + 1⟩, none)
    rw [if_pos]
    rw [div_lt_one (by norm_num)]
    exact_mod_cast hlt
  · intro hge
    show (if ((now - p : Nat) : ℚ) / 1000000 < 1
        then ((⟨some p, c + 1⟩ : AccelDataRate), (none : Option ℚ))
        else (⟨some now, 0⟩,
          some (((c + 1 : Nat) : ℚ) / (((now - p : Nat) : ℚ) / 1000000)))) =
      (⟨some now, 0⟩, some (((c + 1 : Nat) : ℚ) * 1000000 / ((now - p : Nat) : ℚ)))
    rw [if_neg]
    · rw [div_div_eq_mul_div]
    · rw [not_lt, le_div_iff₀ (by norm_num), one_mul]
      exact_mod_cast hge
  · intro idx past readResult rc sent r r2
    rfl

/-- Claim C7, witness: a window open exactly two seconds with four
prior samples resets and emits 5 / 2 Hz; a fresh tracker installs the
current instant. -/
theorem c7_rate_tracker_witness :
    rateUpdate 2000000 ⟨some 0, 4⟩ = (⟨some 2000000, 0⟩, some (5 / 2)) ∧
    rateUpdate 5 ⟨none, 0⟩ = (⟨some 5, 0 + 1⟩, none) := by
  constructor
  · have h := (c7_rate_tracker 2000000 0 4).2.2.1 (by norm_num)
    rw [h]
    norm_num
  · exact (c7_rate_tracker 5 0 0).1

/-- Little-endian recomposition inverts `u32::to_le_bytes`. -/
lemma uToLe4_leVal (n : Nat) (h : n < 2 ^ 32) : leVal (uToLe4 n) = n := by
  unfold uToLe4 leVal
  simp [List.foldr]
  omega

/-- Every byte emitted by `uToLe4` is a byte. -/
lemma uToLe4_bytes_lt (n : Nat) : ∀ b ∈ uToLe4 n, b < 256 := by
  intro b hb
  simp [uToLe4] at hb
  rcases hb with h | h | h | h <;> omega

/-- Claim C8: `as_bytes` produces exactly 20 bytes: the device index,
the gap in microseconds, then x, y, z, four little-endian bytes each
and in that order (the three axis fields are serialized as the four
bytes of their IEEE-754 bit patterns). -/
theorem c8_serialization_layout (d : AccelData Nat) (h1 : d.idx < 2 ^ 32)
    (h2 : d.gap < 2 ^ 32) (hx : d.x < 2 ^ 32) (hy : d.y < 2 ^ 32) (hz : d.z < 2 ^ 32) :
    d.as_bytes.length = 20 ∧
    (∀ b ∈ d.as_bytes, b < 256) ∧
    leVal (d.as_bytes.take 4) = d.idx ∧
    leVal ((d.as_bytes.drop 4).take 4) = d.gap ∧
    leVal ((d.as_bytes.drop 8).take 4) = d.x ∧
    leVal ((d.as_bytes.drop 12).take 4) = d.y ∧
    leVal ((d.as_bytes.drop 16).take 4) = d.z := by
  refine ⟨rfl, ?_, ?_, ?_, ?_, ?_, ?_⟩
  · intro b hb
    simp only [AccelData.as_bytes, List.mem_append] at hb
    rcases hb with ((((h | h) | h) | h) | h) <;> exact uToLe4_bytes_lt _ _ h
  · exact uToLe4_leVal d.idx h1
  · exact uToLe4_leVal d.gap h2
  · exact uToLe4_leVal d.x hx
  · exact uToLe4_leVal d.y hy
  · exact uToLe4_leVal d.z hz

/-- Claim C8, witness: a concrete record round-trips through the
20-byte layout (3/4/5 standing for the axis bit patterns). -/
theorem c8_serialization_layout_witness :
    (AccelData.mk 1 2 3 4 5 : AccelData Nat).as_bytes.length = 20 ∧
    (∀ b ∈ (AccelData.mk 1 2 3 4 5 : AccelData Nat).as_bytes, b < 256) ∧
    leVal ((AccelData.mk 1 2 3 4 5 : AccelData Nat).as_bytes.take 4) = 1 ∧
    leVal (((AccelData.mk 1 2 3 4 5 : AccelData Nat).as_bytes.drop 4).take 4) = 2 ∧
    leVal (((AccelData.mk 1 2 3 4 5 : AccelData Nat).as_bytes.drop 8).take 4) = 3 ∧
    leVal (((AccelData.mk 1 2 3 4 5 : AccelData Nat).as_bytes.drop 12).take 4) = 4 ∧
    leVal (((AccelData.mk 1 2 3 4 5 : AccelData Nat).as_bytes.drop 16).take 4) = 5 :=
  c8_serialization_layout ⟨1, 2, 3, 4, 5⟩ (by norm_num) (by norm_num) (by norm_num)
    (by norm_num) (by norm_num)
